import Mathlib

/-!
Shallow embedding of the `chatroom` repository (Go): the `models.Message`
wire schema, the SQLite-backed message store, the per-connection `Client`
actor, and the `Hub` coordinator event loop (the variant of `hub.Run` that
keys the registry by username and persists through a `MessageStore`).

Machine-level aspects are abstracted as follows: `time.Time` values are
abstract instants (`Nat`); a JSON payload is either a decodable object
(`Raw.json`, a list of fields of the `models.Message` schema, later fields
overriding earlier ones exactly as `encoding/json` does on duplicate keys)
or an undecodable byte blob (`Raw.malformed`); Go-channel sends performed
by the Hub loop are recorded as an ordered list of `Effect`s.
-/

/-- The `models.Message` struct (src/models/message.go). Go field `Type` is
rendered by its JSON name `type`; `Users` and `Error` carry `omitempty`,
the other four JSON keys are always emitted. The Go zero value of each
field is `""` / `0` / `[]`. -/
structure Message where
  type : String
  username : String
  content : String
  timestamp : Nat
  users : List String
  error : String
deriving DecidableEq, Repr

/-- The zero `models.Message`, the value `json.Unmarshal` starts from. -/
def Message.zero : Message :=
  { type := "", username := "", content := "", timestamp := 0, users := [], error := "" }

/-- One key/value pair of the wire JSON object for the `Message` schema. -/
inductive JField where
  | type : String → JField
  | username : String → JField
  | content : String → JField
  | timestamp : Nat → JField
  | users : List String → JField
  | error : String → JField
deriving DecidableEq, Repr

/-- Model of `json.Marshal` on a `models.Message`: the four plain fields are always
emitted in struct order; `users` and `error` are tagged `omitempty` and are
dropped when empty. -/
def Message.encode (m : Message) : List JField :=
  [JField.type m.type, JField.username m.username, JField.content m.content,
    JField.timestamp m.timestamp]
  ++ (if m.users = [] then [] else [JField.users m.users])
  ++ (if m.error = "" then [] else [JField.error m.error])

/-- Effect of one JSON key on the struct being filled by `json.Unmarshal`. -/
def Message.applyField (m : Message) : JField → Message
  | JField.type s => { m with type := s }
  | JField.username s => { m with username := s }
  | JField.content s => { m with content := s }
  | JField.timestamp t => { m with timestamp := t }
  | JField.users us => { m with users := us }
  | JField.error e => { m with error := e }

/-- Model of `json.Unmarshal` of a well-formed object into a `models.Message`:
start from the zero value and apply each present key in order. -/
def Message.decodeFields (fs : List JField) : Message :=
  fs.foldl Message.applyField Message.zero

/-- A raw `[]byte` payload as the Hub and Client see it: either a
well-formed JSON object over the `Message` schema, or bytes that
`json.Unmarshal` rejects. -/
inductive Raw where
  | json : List JField → Raw
  | malformed : Nat → Raw
deriving DecidableEq, Repr

/-- Model of `json.Unmarshal(message, &msg)` at the Hub's broadcast case and the
Client's read pump: fails exactly on malformed payloads. -/
def Raw.decode : Raw → Option Message
  | Raw.json fs => some (Message.decodeFields fs)
  | Raw.malformed _ => none

/-- A connected client as the Hub sees it (src/client/client.go): `id`
stands for the Go pointer identity of the `*client.Client`, `username` is
the private bound identity. -/
structure Client where
  id : Nat
  username : String
deriving DecidableEq, Repr

/-- Accessor `Client.GetUsername`: the read-only identity accessor. -/
def Client.GetUsername (c : Client) : String := c.username

/-- Capacity of a client's `send` channel: `make(chan []byte, 256)`. -/
def sendCapacity : Nat := 256

/-- Model of `Client.SendMessage` acting on the buffered `send` channel: the
`select`/`default` enqueues the payload when the buffer has room and
otherwise drops it silently. -/
def SendMessage (send : List Raw) (message : Raw) : List Raw :=
  if send.length < sendCapacity then send ++ [message] else send

/-- Model of `SQLiteMessageStore.SaveMessage`: a no-op for kinds outside
chat/join/leave, otherwise an append of the row. -/
def SaveMessage (store : List Message) (msg : Message) : List Message :=
  if msg.type ≠ "chat" ∧ msg.type ≠ "join" ∧ msg.type ≠ "leave" then store
  else store ++ [msg]

/-- Descending-timestamp comparison used by `ORDER BY timestamp DESC`. -/
def descTs (a b : Message) : Prop := b.timestamp ≤ a.timestamp

instance : DecidableRel descTs := fun a b => Nat.decLe b.timestamp a.timestamp

instance : IsTotal Message descTs := ⟨fun a b => Nat.le_total b.timestamp a.timestamp⟩

instance : IsTrans Message descTs := ⟨fun _ _ _ hab hbc => Nat.le_trans hbc hab⟩

/-- Model of `SQLiteMessageStore.GetMessages(limit)`: select rows ordered by
timestamp descending, keep at most `limit`, then reverse in Go so the
result is oldest first. -/
def GetMessages (limit : Nat) (store : List Message) : List Message :=
  ((List.insertionSort descTs store).take limit).reverse

/-- A store populated exclusively through `SaveMessage`, as the running
program does starting from the freshly initialized empty table. -/
def storeOf (msgs : List Message) : List Message :=
  msgs.foldl SaveMessage []

/-- Model of `sort.Strings` on the collected usernames: lexicographic sort. -/
def sortStrings (l : List String) : List String :=
  List.insertionSort (· ≤ ·) l

/-- The Hub's mutable state: the username-keyed registry `clients` and the
rows of the `messages` table behind its `MessageStore`. -/
structure HubState where
  clients : List (String × Client)
  store : List Message
deriving DecidableEq, Repr

/-- Map lookup `h.clients[username]` of the Go registry. -/
def lookupClient : List (String × Client) → String → Option Client
  | [], _ => none
  | (k, c) :: rest, u => if k = u then some c else lookupClient rest u

/-- Map deletion `delete(h.clients, username)` on the registry. -/
def removeClient : List (String × Client) → String → List (String × Client)
  | [], _ => []
  | (k, c) :: rest, u =>
      if k = u then removeClient rest u else (k, c) :: removeClient rest u

/-- The three events `Hub.Run` selects on. -/
inductive HubEvent where
  | register : Client → HubEvent
  | unregister : Client → HubEvent
  | broadcast : Raw → HubEvent
deriving DecidableEq, Repr

/-- Observable actions the Hub loop performs while handling one event:
a `SendMessage` call on some client's outbound queue, a
`CloseConnection`, or a `RunPumps` start. -/
inductive Effect where
  | send : Client → Raw → Effect
  | close : Client → Effect
  | runPumps : Client → Effect
deriving DecidableEq, Repr

/-- One `c.SendMessage(payload)` call per registered client, in registry
iteration order. -/
def sendToAll (clients : List (String × Client)) (payload : Raw) : List Effect :=
  clients.map (fun p => Effect.send p.2 payload)

/-- The `error` Message built on an identity conflict. -/
def errMsg : Message :=
  { Message.zero with type := "error", error := "昵称已被占用，请尝试其他昵称。" }

/-- The `join` Message built after a successful registration. -/
def joinMsg (cl : Client) (now : Nat) : Message :=
  { Message.zero with
      type := "join"
      username := cl.GetUsername
      content := cl.GetUsername ++ " 加入了聊天。"
      timestamp := now }

/-- The `leave` Message built on deregistration. -/
def leaveMsg (cl : Client) (now : Nat) : Message :=
  { Message.zero with
      type := "leave"
      username := cl.GetUsername
      content := cl.GetUsername ++ " 离开了聊天。"
      timestamp := now }

/-- The `user_list` Message carrying the sorted identities. -/
def userListMsg (users : List String) : Message :=
  { Message.zero with type := "user_list", users := users }

/-- Model of `Hub.SendUserListToAllClients`: collect the registry keys, sort them
with `sort.Strings`, marshal a `user_list` Message and send it to every
registered client. -/
def SendUserListToAllClients (clients : List (String × Client)) : List Effect :=
  sendToAll clients
    (Raw.json (Message.encode (userListMsg (sortStrings (clients.map Prod.fst)))))

/-- One iteration of the `Hub.Run` event loop on the variant that keys the
registry by username and persists via the `MessageStore` (`now` stands for
the `time.Now()` observed while handling the event). Register: an existing
entry under the same username means one error `SendMessage`, a
`CloseConnection`, and no registry change; otherwise insert, start the
pumps, replay `GetMessages(50)`, persist and send the join Message to
every registered client, then broadcast the user list. Unregister: if the
username is absent, nothing; otherwise delete, persist and send the leave
Message to the remaining clients, then broadcast the user list. Broadcast:
if `json.Unmarshal` fails the loop logs and continues without sending;
otherwise the decoded Message is persisted and the original raw payload is
sent to every registered client. -/
def hubStep (st : HubState) (now : Nat) : HubEvent → HubState × List Effect
  | HubEvent.register cl =>
      if (lookupClient st.clients cl.GetUsername).isSome then
        (st, [Effect.send cl (Raw.json (Message.encode errMsg)), Effect.close cl])
      else
        let clients' := st.clients ++ [(cl.GetUsername, cl)]
        let history := GetMessages 50 st.store
        let jm := joinMsg cl now
        ({ clients := clients', store := SaveMessage st.store jm },
          [Effect.runPumps cl]
          ++ history.map (fun m => Effect.send cl (Raw.json (Message.encode m)))
          ++ sendToAll clients' (Raw.json (Message.encode jm))
          ++ SendUserListToAllClients clients')
  | HubEvent.unregister cl =>
      if (lookupClient st.clients cl.GetUsername).isSome then
        let clients' := removeClient st.clients cl.GetUsername
        let lm := leaveMsg cl now
        ({ clients := clients', store := SaveMessage st.store lm },
          sendToAll clients' (Raw.json (Message.encode lm))
          ++ SendUserListToAllClients clients')
      else
        (st, [])
  | HubEvent.broadcast message =>
      match Raw.decode message with
      | none => (st, [])
      | some msg =>
          ({ st with store := SaveMessage st.store msg },
            sendToAll st.clients message)

/-- The Hub state `NewHub` starts from: empty registry, empty table. -/
def initialHub : HubState := { clients := [], store := [] }

/-- The Hub state after the event loop has consumed a finite sequence of
timestamped events. -/
def runHub (evs : List (Nat × HubEvent)) : HubState :=
  evs.foldl (fun st e => (hubStep st e.1 e.2).1) initialHub

/-- One body of the Client read-pump loop after a successful read and
decode: overwrite the username with the bound identity, stamp the current
time, force the kind to `chat`. -/
def stamp (c : Client) (now : Nat) (msg : Message) : Message :=
  { msg with username := c.GetUsername, timestamp := now, type := "chat" }

/-- Model of `Client.readPump` handling of one received unit: a payload that fails
to decode is discarded (`none`); otherwise the stamped Message is
re-marshaled and handed to `Hub.Broadcast`. -/
def readPumpStep (c : Client) (now : Nat) (raw : Raw) : Option Raw :=
  match Raw.decode raw with
  | none => none
  | some msg => some (Raw.json (Message.encode (stamp c now msg)))

/-- Registry binding invariant: every key maps to a client whose
`GetUsername` is that key. -/
def Bound (clients : List (String × Client)) : Prop :=
  ∀ p ∈ clients, p.2.GetUsername = p.1

lemma lookupClient_removeClient (l : List (String × Client)) (u : String) :
    lookupClient (removeClient l u) u = none := by
  induction l with
  | nil => rfl
  | cons p rest ih =>
      obtain ⟨k, c⟩ := p
      by_cases hk : k = u <;> simp [removeClient, lookupClient, hk, ih]

lemma mem_removeClient {p : String × Client} {l : List (String × Client)}
    {u : String} (h : p ∈ removeClient l u) : p ∈ l := by
  induction l with
  | nil => simp [removeClient] at h
  | cons q rest ih =>
      obtain ⟨k, c⟩ := q
      by_cases hk : k = u
      · simp only [removeClient, if_pos hk] at h
        exact List.mem_cons_of_mem _ (ih h)
      · simp only [removeClient, if_neg hk] at h
        rcases List.mem_cons.mp h with h1 | h2
        · exact h1 ▸ List.mem_cons_self _ _
        · exact List.mem_cons_of_mem _ (ih h2)

/-- C8: a payload enqueued through `Client.SendMessage` while the outbound
queue is already at capacity leaves the queue unchanged — the newest
payload is silently dropped, the call returns without blocking (it is a
total function of the queue) and surfaces no error. -/
theorem sendMessage_full_queue_drops (send : List Raw) (message : Raw)
    (h : sendCapacity ≤ send.length) : SendMessage send message = send := by
  simp [SendMessage, Nat.not_lt.mpr h]

/-- Witness for C8 at a concrete full queue of 256 payloads. -/
theorem sendMessage_full_queue_drops_witness :
    sendCapacity ≤ (List.replicate 256 (Raw.malformed 0)).length ∧
    SendMessage (List.replicate 256 (Raw.malformed 0)) (Raw.malformed 1)
      = List.replicate 256 (Raw.malformed 0) :=
  ⟨by simp only [sendCapacity, List.length_replicate, Nat.le_refl],
    sendMessage_full_queue_drops _ _
      (by simp only [sendCapacity, List.length_replicate, Nat.le_refl])⟩

/-- C7: `unregister` is idempotent. If the client's identity is not in the
registry, the Hub leaves the state unchanged and performs no sends at all;
and whatever the first unregister did, a second unregister of the same
client is a no-op — so a duplicate unregister event yields no second
`leave` broadcast and no error. -/
theorem unregister_idempotent (st : HubState) (cl : Client) (now now2 : Nat) :
    (lookupClient st.clients cl.GetUsername = none →
      hubStep st now (HubEvent.unregister cl) = (st, [])) ∧
    hubStep (hubStep st now (HubEvent.unregister cl)).1 now2 (HubEvent.unregister cl)
      = ((hubStep st now (HubEvent.unregister cl)).1, []) := by
  constructor
  · intro h
    simp [hubStep, h]
  · cases hl : lookupClient st.clients cl.GetUsername with
    | none => simp [hubStep, hl]
    | some c => simp [hubStep, hl, lookupClient_removeClient]

/-- Witness for C7: a registry holding only "bob" ignores an unregister
for "ann", and a second unregister of "bob" after the first is a no-op. -/
theorem unregister_idempotent_witness :
    (lookupClient (HubState.mk [("bob", Client.mk 0 "bob")] []).clients
        (Client.mk 1 "ann").GetUsername = none →
      hubStep (HubState.mk [("bob", Client.mk 0 "bob")] []) 4
          (HubEvent.unregister (Client.mk 1 "ann"))
        = (HubState.mk [("bob", Client.mk 0 "bob")] [], [])) ∧
    hubStep (hubStep (HubState.mk [("bob", Client.mk 0 "bob")] []) 4
        (HubEvent.unregister (Client.mk 1 "ann"))).1 5
        (HubEvent.unregister (Client.mk 1 "ann"))
      = ((hubStep (HubState.mk [("bob", Client.mk 0 "bob")] []) 4
          (HubEvent.unregister (Client.mk 1 "ann"))).1, []) :=
  unregister_idempotent (HubState.mk [("bob", Client.mk 0 "bob")] [])
    (Client.mk 1 "ann") 4 5

lemma bound_hubStep (st : HubState) (now : Nat) (e : HubEvent)
    (h : Bound st.clients) : Bound (hubStep st now e).1.clients := by
  cases e with
  | register cl =>
      by_cases hl : (lookupClient st.clients cl.GetUsername).isSome
      · simpa [hubStep, hl] using h
      · simp only [hubStep, hl, if_neg, Bool.false_eq_true, not_false_iff, if_false]
        intro p hp
        rcases List.mem_append.mp hp with h1 | h2
        · exact h p h1
        · rcases List.mem_singleton.mp h2 with rfl
          rfl
  | unregister cl =>
      by_cases hl : (lookupClient st.clients cl.GetUsername).isSome
      · simp only [hubStep, hl, if_pos]
        intro p hp
        exact h p (mem_removeClient hp)
      · simpa [hubStep, hl] using h
  | broadcast message =>
      cases message with
      | json fs => simpa [hubStep, Raw.decode] using h
      | malformed n => simpa [hubStep, Raw.decode] using h

lemma bound_foldl (evs : List (Nat × HubEvent)) (st : HubState)
    (h : Bound st.clients) :
    Bound (evs.foldl (fun s e => (hubStep s e.1 e.2).1) st).clients := by
  induction evs generalizing st with
  | nil => exact h
  | cons e rest ih => exact ih _ (bound_hubStep _ _ _ h)

lemma bound_initial : Bound initialHub.clients := by
  intro p hp
  simp [initialHub] at hp

/-- C10: the registry binding invariant — every key maps to a client whose
identity accessor returns exactly that key — is preserved by every
register, unregister, and broadcast event, and therefore holds in every
Hub state reachable from the initial one. -/
theorem hub_registry_binding (st : HubState) (now : Nat) (e : HubEvent)
    (h : Bound st.clients) :
    Bound (hubStep st now e).1.clients ∧
    ∀ evs : List (Nat × HubEvent), Bound (runHub evs).clients :=
  ⟨bound_hubStep st now e h, fun evs => bound_foldl evs initialHub bound_initial⟩

/-- Witness for C10 at a concrete bound registry and a register event. -/
theorem hub_registry_binding_witness :
    Bound (hubStep (HubState.mk [("ann", Client.mk 0 "ann")] []) 7
        (HubEvent.register (Client.mk 1 "bob"))).1.clients ∧
    ∀ evs : List (Nat × HubEvent), Bound (runHub evs).clients :=
  hub_registry_binding (HubState.mk [("ann", Client.mk 0 "ann")] []) 7
    (HubEvent.register (Client.mk 1 "bob"))
    (by intro p hp; fin_cases hp; rfl)

lemma mem_sendToAll {p : String × Client} {clients : List (String × Client)}
    (payload : Raw) (hp : p ∈ clients) :
    Effect.send p.2 payload ∈ sendToAll clients payload :=
  List.mem_map_of_mem _ hp

lemma SaveMessage_keeps (s : List Message) (m : Message)
    (h : m.type = "chat" ∨ m.type = "join" ∨ m.type = "leave") :
    SaveMessage s m = s ++ [m] := by
  have hcond : ¬(m.type ≠ "chat" ∧ m.type ≠ "join" ∧ m.type ≠ "leave") := by
    rcases h with h | h | h <;> simp [h]
  simp [SaveMessage, hcond]

lemma hubStep_register_success (st : HubState) (cl : Client) (now : Nat)
    (h : lookupClient st.clients cl.GetUsername = none) :
    hubStep st now (HubEvent.register cl)
      = ({ clients := st.clients ++ [(cl.GetUsername, cl)],
           store := SaveMessage st.store (joinMsg cl now) },
         [Effect.runPumps cl]
         ++ (GetMessages 50 st.store).map
              (fun m => Effect.send cl (Raw.json (Message.encode m)))
         ++ sendToAll (st.clients ++ [(cl.GetUsername, cl)])
              (Raw.json (Message.encode (joinMsg cl now)))
         ++ SendUserListToAllClients (st.clients ++ [(cl.GetUsername, cl)])) := by
  simp [hubStep, h]

lemma hubStep_register_conflict (st : HubState) (cl : Client) (now : Nat)
    (h : (lookupClient st.clients cl.GetUsername).isSome) :
    hubStep st now (HubEvent.register cl)
      = (st, [Effect.send cl (Raw.json (Message.encode errMsg)), Effect.close cl]) := by
  simp [hubStep, h]

lemma hubStep_unregister_present (st : HubState) (cl : Client) (now : Nat)
    (h : (lookupClient st.clients cl.GetUsername).isSome) :
    hubStep st now (HubEvent.unregister cl)
      = ({ clients := removeClient st.clients cl.GetUsername,
           store := SaveMessage st.store (leaveMsg cl now) },
         sendToAll (removeClient st.clients cl.GetUsername)
             (Raw.json (Message.encode (leaveMsg cl now)))
         ++ SendUserListToAllClients (removeClient st.clients cl.GetUsername)) := by
  simp [hubStep, h]

lemma hubStep_broadcast_some (st : HubState) (now : Nat) (message : Raw)
    (msg : Message) (h : Raw.decode message = some msg) :
    hubStep st now (HubEvent.broadcast message)
      = ({ st with store := SaveMessage st.store msg }, sendToAll st.clients message) := by
  simp [hubStep, h]

lemma hubStep_broadcast_none (st : HubState) (now : Nat) (message : Raw)
    (h : Raw.decode message = none) :
    hubStep st now (HubEvent.broadcast message) = (st, []) := by
  simp [hubStep, h]

lemma Message.decode_encode (m : Message) :
    Message.decodeFields (Message.encode m) = m := by
  obtain ⟨t, u, c, ts, us, e⟩ := m
  by_cases hu : us = [] <;> by_cases he : e = "" <;>
    simp [Message.encode, Message.decodeFields, Message.applyField, Message.zero,
      hu, he]

/-- C3: a registration request under an identity that is already
registered makes the Hub perform exactly one `SendMessage` to the new
client carrying the marshaled `error` Message followed by one
`CloseConnection` — no `RunPumps`, no other sends — and leaves the state
untouched, so the registry entry for that identity still maps to the
original client. -/
theorem register_conflict_rejected (st : HubState) (cl c0 : Client) (now : Nat)
    (h : lookupClient st.clients cl.GetUsername = some c0) :
    hubStep st now (HubEvent.register cl)
      = (st, [Effect.send cl (Raw.json (Message.encode errMsg)), Effect.close cl]) ∧
    lookupClient (hubStep st now (HubEvent.register cl)).1.clients cl.GetUsername
      = some c0 := by
  have h1 := hubStep_register_conflict st cl now (by simp [h])
  exact ⟨h1, by rw [h1]; exact h⟩

/-- Witness for C3: registering a second "alice" while "alice" is
registered yields exactly the error send plus the close, and the registry
still maps "alice" to the original client. -/
theorem register_conflict_rejected_witness :
    lookupClient (HubState.mk [("alice", Client.mk 0 "alice")] []).clients
        (Client.mk 1 "alice").GetUsername = some (Client.mk 0 "alice") ∧
    (hubStep (HubState.mk [("alice", Client.mk 0 "alice")] []) 9
        (HubEvent.register (Client.mk 1 "alice"))
      = (HubState.mk [("alice", Client.mk 0 "alice")] [],
         [Effect.send (Client.mk 1 "alice") (Raw.json (Message.encode errMsg)),
          Effect.close (Client.mk 1 "alice")]) ∧
    lookupClient (hubStep (HubState.mk [("alice", Client.mk 0 "alice")] []) 9
        (HubEvent.register (Client.mk 1 "alice"))).1.clients
        (Client.mk 1 "alice").GetUsername = some (Client.mk 0 "alice")) :=
  ⟨by decide,
    register_conflict_rejected (HubState.mk [("alice", Client.mk 0 "alice")] [])
      (Client.mk 1 "alice") (Client.mk 0 "alice") 9 (by decide)⟩

/-- C5 is refuted as stated: the encoding of a `user_list` Message still
contains the `username`, `content` and `timestamp` keys with their zero
values, because only `users` and `error` carry `omitempty` — fields not
relevant to the kind are present with defaults, not absent. -/
theorem wire_kind_fields_counterexample :
    (userListMsg ["ann"]).type = "user_list" ∧
    JField.username "" ∈ Message.encode (userListMsg ["ann"]) ∧
    JField.content "" ∈ Message.encode (userListMsg ["ann"]) ∧
    JField.timestamp 0 ∈ Message.encode (userListMsg ["ann"]) := by decide

/-- C5 (amended): encode/decode round-trips every Message exactly, and the
`users` and `error` keys are absent when empty; but the `type`,
`username`, `content` and `timestamp` keys are always present in the
encoded form, carrying zero values when not relevant to the kind. -/
theorem wire_roundtrip (m : Message) :
    Message.decodeFields (Message.encode m) = m ∧
    (m.users = [] → ∀ v, JField.users v ∉ Message.encode m) ∧
    (m.error = "" → ∀ v, JField.error v ∉ Message.encode m) ∧
    JField.type m.type ∈ Message.encode m ∧
    JField.username m.username ∈ Message.encode m ∧
    JField.content m.content ∈ Message.encode m ∧
    JField.timestamp m.timestamp ∈ Message.encode m := by
  refine ⟨Message.decode_encode m, ?_, ?_, ?_, ?_, ?_, ?_⟩
  · intro hu v
    by_cases he : m.error = "" <;> simp [Message.encode, hu, he]
  · intro he v
    by_cases hu : m.users = [] <;> simp [Message.encode, hu, he]
  · simp [Message.encode]
  · simp [Message.encode]
  · simp [Message.encode]
  · simp [Message.encode]

/-- Witness for C5 (amended) at one Message of each mentioned shape,
instantiating the round-trip at a concrete `user_list` Message. -/
theorem wire_roundtrip_witness :
    Message.decodeFields (Message.encode (userListMsg ["ann", "bob"]))
      = userListMsg ["ann", "bob"] ∧
    ((userListMsg ["ann", "bob"]).users = [] →
      ∀ v, JField.users v ∉ Message.encode (userListMsg ["ann", "bob"])) ∧
    ((userListMsg ["ann", "bob"]).error = "" →
      ∀ v, JField.error v ∉ Message.encode (userListMsg ["ann", "bob"])) ∧
    JField.type (userListMsg ["ann", "bob"]).type
      ∈ Message.encode (userListMsg ["ann", "bob"]) ∧
    JField.username (userListMsg ["ann", "bob"]).username
      ∈ Message.encode (userListMsg ["ann", "bob"]) ∧
    JField.content (userListMsg ["ann", "bob"]).content
      ∈ Message.encode (userListMsg ["ann", "bob"]) ∧
    JField.timestamp (userListMsg ["ann", "bob"]).timestamp
      ∈ Message.encode (userListMsg ["ann", "bob"]) :=
  wire_roundtrip (userListMsg ["ann", "bob"])

/-- C1 is refuted as stated: with "alice" registered, a broadcast whose
payload fails to decode produces no send at all — the `continue` after the
failed `json.Unmarshal` drops the payload instead of forwarding it, so
decode failure does affect delivery. -/
theorem broadcast_malformed_counterexample :
    lookupClient (HubState.mk [("alice", Client.mk 0 "alice")] []).clients "alice"
      = some (Client.mk 0 "alice") ∧
    (hubStep (HubState.mk [("alice", Client.mk 0 "alice")] []) 0
        (HubEvent.broadcast (Raw.malformed 0))).2 = [] ∧
    Effect.send (Client.mk 0 "alice") (Raw.malformed 0)
      ∉ (hubStep (HubState.mk [("alice", Client.mk 0 "alice")] []) 0
          (HubEvent.broadcast (Raw.malformed 0))).2 := by decide

/-- C1 (amended): when the broadcast payload decodes, the Hub hands the
original raw payload — the very same value, byte-for-byte — to
`SendMessage` of every currently registered client including the sender,
and persists the decoded Message; a payload that fails to decode is
dropped entirely: no send and no state change. -/
theorem broadcast_forwards_raw (st : HubState) (now : Nat) (message : Raw)
    (msg : Message) (h : Raw.decode message = some msg) :
    (hubStep st now (HubEvent.broadcast message)).2 = sendToAll st.clients message ∧
    (∀ p ∈ st.clients,
      Effect.send p.2 message ∈ (hubStep st now (HubEvent.broadcast message)).2) ∧
    (hubStep st now (HubEvent.broadcast message)).1.store = SaveMessage st.store msg ∧
    (hubStep st now (HubEvent.broadcast message)).1.clients = st.clients ∧
    (∀ bad : Raw, Raw.decode bad = none →
      hubStep st now (HubEvent.broadcast bad) = (st, [])) := by
  have h1 := hubStep_broadcast_some st now message msg h
  refine ⟨by rw [h1], ?_, by rw [h1], by rw [h1], ?_⟩
  · intro p hp
    rw [h1]
    exact mem_sendToAll message hp
  · intro bad hb
    exact hubStep_broadcast_none st now bad hb

/-- Witness for C1 (amended): a decodable chat payload broadcast to a
one-client registry is forwarded unchanged to that client. -/
theorem broadcast_forwards_raw_witness :
    Raw.decode (Raw.json [JField.type "chat"])
      = some { Message.zero with type := "chat" } ∧
    ((hubStep (HubState.mk [("a", Client.mk 0 "a")] []) 3
        (HubEvent.broadcast (Raw.json [JField.type "chat"]))).2
      = sendToAll (HubState.mk [("a", Client.mk 0 "a")] []).clients
          (Raw.json [JField.type "chat"]) ∧
    (∀ p ∈ (HubState.mk [("a", Client.mk 0 "a")] []).clients,
      Effect.send p.2 (Raw.json [JField.type "chat"])
        ∈ (hubStep (HubState.mk [("a", Client.mk 0 "a")] []) 3
            (HubEvent.broadcast (Raw.json [JField.type "chat"]))).2) ∧
    (hubStep (HubState.mk [("a", Client.mk 0 "a")] []) 3
        (HubEvent.broadcast (Raw.json [JField.type "chat"]))).1.store
      = SaveMessage [] { Message.zero with type := "chat" } ∧
    (hubStep (HubState.mk [("a", Client.mk 0 "a")] []) 3
        (HubEvent.broadcast (Raw.json [JField.type "chat"]))).1.clients
      = (HubState.mk [("a", Client.mk 0 "a")] []).clients ∧
    (∀ bad : Raw, Raw.decode bad = none →
      hubStep (HubState.mk [("a", Client.mk 0 "a")] []) 3
          (HubEvent.broadcast bad)
        = (HubState.mk [("a", Client.mk 0 "a")] [], []))) :=
  ⟨by decide,
    broadcast_forwards_raw (HubState.mk [("a", Client.mk 0 "a")] []) 3
      (Raw.json [JField.type "chat"]) { Message.zero with type := "chat" }
      (by decide)⟩

/-- C2 is refuted as stated: in this variant of `Hub.Run` the join
broadcast loop has no self-exclusion, so the newly registered client does
receive its own `join` Message — here "bob" joins a room holding "ann" and
the join send to bob himself is among the effects. -/
theorem join_sent_to_self_counterexample :
    lookupClient (HubState.mk [("ann", Client.mk 0 "ann")] []).clients "bob" = none ∧
    Effect.send (Client.mk 1 "bob")
        (Raw.json (Message.encode (joinMsg (Client.mk 1 "bob") 5)))
      ∈ (hubStep (HubState.mk [("ann", Client.mk 0 "ann")] []) 5
          (HubEvent.register (Client.mk 1 "bob"))).2 := by decide

/-- C2 (amended): on a conflict-free registration the Hub inserts the
client, persists the `join` Message, and enqueues its marshaled form onto
the outbound queue of every registered client including the newly
registered client itself. -/
theorem register_success_join_broadcast (st : HubState) (cl : Client) (now : Nat)
    (h : lookupClient st.clients cl.GetUsername = none) :
    (hubStep st now (HubEvent.register cl)).1.clients
      = st.clients ++ [(cl.GetUsername, cl)] ∧
    (hubStep st now (HubEvent.register cl)).1.store
      = st.store ++ [joinMsg cl now] ∧
    (∀ p ∈ (hubStep st now (HubEvent.register cl)).1.clients,
      Effect.send p.2 (Raw.json (Message.encode (joinMsg cl now)))
        ∈ (hubStep st now (HubEvent.register cl)).2) ∧
    (cl.GetUsername, cl) ∈ (hubStep st now (HubEvent.register cl)).1.clients := by
  have h1 := hubStep_register_success st cl now h
  have hsave : SaveMessage st.store (joinMsg cl now) = st.store ++ [joinMsg cl now] :=
    SaveMessage_keeps _ _ (Or.inr (Or.inl (by simp [joinMsg])))
  refine ⟨by rw [h1], by rw [h1]; exact hsave, ?_, ?_⟩
  · intro p hp
    rw [h1] at hp ⊢
    refine List.mem_append.mpr (Or.inl (List.mem_append.mpr (Or.inr ?_)))
    exact mem_sendToAll _ hp
  · rw [h1]
    exact List.mem_append_right _ (List.mem_singleton.mpr rfl)

/-- Witness for C2 (amended): "bob" registering beside "ann" puts both
clients, himself included, among the recipients of the join Message. -/
theorem register_success_join_broadcast_witness :
    lookupClient (HubState.mk [("ann", Client.mk 0 "ann")] []).clients
        (Client.mk 1 "bob").GetUsername = none ∧
    ((hubStep (HubState.mk [("ann", Client.mk 0 "ann")] []) 5
        (HubEvent.register (Client.mk 1 "bob"))).1.clients
      = (HubState.mk [("ann", Client.mk 0 "ann")] []).clients
        ++ [((Client.mk 1 "bob").GetUsername, Client.mk 1 "bob")] ∧
    (hubStep (HubState.mk [("ann", Client.mk 0 "ann")] []) 5
        (HubEvent.register (Client.mk 1 "bob"))).1.store
      = [] ++ [joinMsg (Client.mk 1 "bob") 5] ∧
    (∀ p ∈ (hubStep (HubState.mk [("ann", Client.mk 0 "ann")] []) 5
        (HubEvent.register (Client.mk 1 "bob"))).1.clients,
      Effect.send p.2 (Raw.json (Message.encode (joinMsg (Client.mk 1 "bob") 5)))
        ∈ (hubStep (HubState.mk [("ann", Client.mk 0 "ann")] []) 5
            (HubEvent.register (Client.mk 1 "bob"))).2) ∧
    ((Client.mk 1 "bob").GetUsername, Client.mk 1 "bob")
      ∈ (hubStep (HubState.mk [("ann", Client.mk 0 "ann")] []) 5
          (HubEvent.register (Client.mk 1 "bob"))).1.clients) :=
  ⟨by decide,
    register_success_join_broadcast (HubState.mk [("ann", Client.mk 0 "ann")] [])
      (Client.mk 1 "bob") 5 (by decide)⟩

lemma sortStrings_sorted (l : List String) :
    List.Sorted (· ≤ ·) (sortStrings l) :=
  List.sorted_insertionSort _ l

lemma sortStrings_perm (l : List String) : List.Perm (sortStrings l) l :=
  List.perm_insertionSort _ l

/-- C4: on every registration and every (effective) unregistration, the
`user_list` Message that `SendUserListToAllClients` broadcasts carries as
`users` exactly the identities registered after the mutation —
lexicographically sorted and a permutation of the registry keys — and one
send of it goes to every registered client, including, on registration,
the newly registered client itself. -/
theorem user_list_broadcast (st : HubState) (cl : Client) (now : Nat) :
    (lookupClient st.clients cl.GetUsername = none →
      List.Sorted (· ≤ ·)
          (sortStrings ((st.clients ++ [(cl.GetUsername, cl)]).map Prod.fst)) ∧
      List.Perm (sortStrings ((st.clients ++ [(cl.GetUsername, cl)]).map Prod.fst))
          ((hubStep st now (HubEvent.register cl)).1.clients.map Prod.fst) ∧
      (∀ p ∈ (hubStep st now (HubEvent.register cl)).1.clients,
        Effect.send p.2 (Raw.json (Message.encode (userListMsg
            (sortStrings ((st.clients ++ [(cl.GetUsername, cl)]).map Prod.fst)))))
          ∈ (hubStep st now (HubEvent.register cl)).2) ∧
      (cl.GetUsername, cl) ∈ (hubStep st now (HubEvent.register cl)).1.clients) ∧
    (∀ c0 : Client, lookupClient st.clients cl.GetUsername = some c0 →
      List.Sorted (· ≤ ·)
          (sortStrings ((removeClient st.clients cl.GetUsername).map Prod.fst)) ∧
      List.Perm (sortStrings ((removeClient st.clients cl.GetUsername).map Prod.fst))
          ((hubStep st now (HubEvent.unregister cl)).1.clients.map Prod.fst) ∧
      (∀ p ∈ (hubStep st now (HubEvent.unregister cl)).1.clients,
        Effect.send p.2 (Raw.json (Message.encode (userListMsg
            (sortStrings ((removeClient st.clients cl.GetUsername).map Prod.fst)))))
          ∈ (hubStep st now (HubEvent.unregister cl)).2)) := by
  constructor
  · intro h
    have h1 := hubStep_register_success st cl now h
    refine ⟨sortStrings_sorted _, ?_, ?_, ?_⟩
    · rw [h1]
      exact sortStrings_perm _
    · intro p hp
      rw [h1] at hp ⊢
      refine List.mem_append.mpr (Or.inr ?_)
      simp only [SendUserListToAllClients]
      exact mem_sendToAll _ hp
    · rw [h1]
      exact List.mem_append_right _ (List.mem_singleton.mpr rfl)
  · intro c0 h
    have h1 := hubStep_unregister_present st cl now (by simp [h])
    refine ⟨sortStrings_sorted _, ?_, ?_⟩
    · rw [h1]
      exact sortStrings_perm _
    · intro p hp
      rw [h1] at hp ⊢
      refine List.mem_append.mpr (Or.inr ?_)
      simp only [SendUserListToAllClients]
      exact mem_sendToAll _ hp

/-- Witness for C4: registering "bob" beside "ann", and unregistering
"bob" from a room holding "ann" and "bob" (which leaves exactly
`["ann"]`). -/
theorem user_list_broadcast_witness :
    (List.Sorted (· ≤ ·)
        (sortStrings (((HubState.mk [("ann", Client.mk 0 "ann")] []).clients
          ++ [((Client.mk 1 "bob").GetUsername, Client.mk 1 "bob")]).map Prod.fst)) ∧
      List.Perm
        (sortStrings (((HubState.mk [("ann", Client.mk 0 "ann")] []).clients
          ++ [((Client.mk 1 "bob").GetUsername, Client.mk 1 "bob")]).map Prod.fst))
        ((hubStep (HubState.mk [("ann", Client.mk 0 "ann")] []) 5
            (HubEvent.register (Client.mk 1 "bob"))).1.clients.map Prod.fst) ∧
      (∀ p ∈ (hubStep (HubState.mk [("ann", Client.mk 0 "ann")] []) 5
          (HubEvent.register (Client.mk 1 "bob"))).1.clients,
        Effect.send p.2 (Raw.json (Message.encode (userListMsg
            (sortStrings (((HubState.mk [("ann", Client.mk 0 "ann")] []).clients
              ++ [((Client.mk 1 "bob").GetUsername, Client.mk 1 "bob")]).map Prod.fst)))))
          ∈ (hubStep (HubState.mk [("ann", Client.mk 0 "ann")] []) 5
              (HubEvent.register (Client.mk 1 "bob"))).2) ∧
      ((Client.mk 1 "bob").GetUsername, Client.mk 1 "bob")
        ∈ (hubStep (HubState.mk [("ann", Client.mk 0 "ann")] []) 5
            (HubEvent.register (Client.mk 1 "bob"))).1.clients) ∧
    (List.Sorted (· ≤ ·)
        (sortStrings ((removeClient
          (HubState.mk [("ann", Client.mk 0 "ann"), ("bob", Client.mk 1 "bob")] []).clients
          (Client.mk 1 "bob").GetUsername).map Prod.fst)) ∧
      List.Perm
        (sortStrings ((removeClient
          (HubState.mk [("ann", Client.mk 0 "ann"), ("bob", Client.mk 1 "bob")] []).clients
          (Client.mk 1 "bob").GetUsername).map Prod.fst))
        ((hubStep (HubState.mk [("ann", Client.mk 0 "ann"), ("bob", Client.mk 1 "bob")] []) 6
            (HubEvent.unregister (Client.mk 1 "bob"))).1.clients.map Prod.fst) ∧
      (∀ p ∈ (hubStep
          (HubState.mk [("ann", Client.mk 0 "ann"), ("bob", Client.mk 1 "bob")] []) 6
          (HubEvent.unregister (Client.mk 1 "bob"))).1.clients,
        Effect.send p.2 (Raw.json (Message.encode (userListMsg
            (sortStrings ((removeClient
              (HubState.mk [("ann", Client.mk 0 "ann"), ("bob", Client.mk 1 "bob")] []).clients
              (Client.mk 1 "bob").GetUsername).map Prod.fst)))))
          ∈ (hubStep
              (HubState.mk [("ann", Client.mk 0 "ann"), ("bob", Client.mk 1 "bob")] []) 6
              (HubEvent.unregister (Client.mk 1 "bob"))).2)) :=
  ⟨(user_list_broadcast (HubState.mk [("ann", Client.mk 0 "ann")] [])
      (Client.mk 1 "bob") 5).1 (by decide),
    (user_list_broadcast
      (HubState.mk [("ann", Client.mk 0 "ann"), ("bob", Client.mk 1 "bob")] [])
      (Client.mk 1 "bob") 6).2 (Client.mk 1 "bob") (by decide)⟩

lemma GetMessages_length (limit : Nat) (store : List Message) :
    (GetMessages limit store).length ≤ limit := by
  simp only [GetMessages, List.length_reverse, List.length_take]
  exact min_le_left _ _

lemma GetMessages_sorted (limit : Nat) (store : List Message) :
    List.Pairwise (fun a b => a.timestamp ≤ b.timestamp)
      (GetMessages limit store) := by
  refine List.pairwise_reverse.mpr ?_
  exact List.Pairwise.take (List.sorted_insertionSort descTs store)

lemma GetMessages_subset (limit : Nat) (store : List Message) :
    ∀ m ∈ GetMessages limit store, m ∈ store := by
  intro m hm
  simp only [GetMessages, List.mem_reverse] at hm
  exact (List.perm_insertionSort descTs store).subset (List.take_subset _ _ hm)

lemma storeOf_kinds_aux (msgs : List Message) (init : List Message)
    (h : ∀ m ∈ init, m.type = "chat" ∨ m.type = "join" ∨ m.type = "leave") :
    ∀ m ∈ msgs.foldl SaveMessage init,
      m.type = "chat" ∨ m.type = "join" ∨ m.type = "leave" := by
  induction msgs generalizing init with
  | nil => exact h
  | cons x rest ih =>
      refine ih (SaveMessage init x) ?_
      intro m hm
      by_cases hx : x.type ≠ "chat" ∧ x.type ≠ "join" ∧ x.type ≠ "leave"
      · rw [SaveMessage, if_pos hx] at hm
        exact h m hm
      · rw [SaveMessage, if_neg hx] at hm
        rcases List.mem_append.mp hm with h1 | h2
        · exact h m h1
        · rcases List.mem_singleton.mp h2 with rfl
          tauto

lemma storeOf_kinds (msgs : List Message) :
    ∀ m ∈ storeOf msgs, m.type = "chat" ∨ m.type = "join" ∨ m.type = "leave" :=
  storeOf_kinds_aux msgs [] (by intro m hm; simp at hm)

/-- C6: on a successful registration the Hub replays, right after starting
the client's pumps and before anything else, exactly the result of
`GetMessages 50` on its store to the new client; for a store populated
through `SaveMessage`, this replay holds at most 50 messages, in ascending
timestamp order, and every replayed message has kind chat, join or
leave. -/
theorem history_replay (st : HubState) (cl : Client) (now : Nat)
    (msgs : List Message) (hstore : st.store = storeOf msgs)
    (h : lookupClient st.clients cl.GetUsername = none) :
    (∃ rest, (hubStep st now (HubEvent.register cl)).2
      = Effect.runPumps cl
        :: ((GetMessages 50 st.store).map
              (fun m => Effect.send cl (Raw.json (Message.encode m))) ++ rest)) ∧
    (GetMessages 50 st.store).length ≤ 50 ∧
    List.Pairwise (fun a b => a.timestamp ≤ b.timestamp) (GetMessages 50 st.store) ∧
    (∀ m ∈ GetMessages 50 st.store,
      m.type = "chat" ∨ m.type = "join" ∨ m.type = "leave") := by
  have h1 := hubStep_register_success st cl now h
  refine ⟨?_, GetMessages_length 50 st.store, GetMessages_sorted 50 st.store, ?_⟩
  · refine ⟨sendToAll (st.clients ++ [(cl.GetUsername, cl)])
        (Raw.json (Message.encode (joinMsg cl now)))
      ++ SendUserListToAllClients (st.clients ++ [(cl.GetUsername, cl)]), ?_⟩
    rw [h1]
    simp [List.append_assoc]
  · intro m hm
    exact storeOf_kinds msgs m (hstore ▸ GetMessages_subset 50 st.store m hm)

/-- Witness for C6: a fresh client joining over a store holding one chat
and one join row. -/
theorem history_replay_witness :
    (∃ rest, (hubStep (HubState.mk []
        (storeOf [{ Message.zero with type := "chat", timestamp := 2 },
                  { Message.zero with type := "join", timestamp := 1 }])) 9
        (HubEvent.register (Client.mk 0 "ann"))).2
      = Effect.runPumps (Client.mk 0 "ann")
        :: ((GetMessages 50
              (storeOf [{ Message.zero with type := "chat", timestamp := 2 },
                        { Message.zero with type := "join", timestamp := 1 }])).map
              (fun m => Effect.send (Client.mk 0 "ann")
                (Raw.json (Message.encode m))) ++ rest)) ∧
    (GetMessages 50
        (storeOf [{ Message.zero with type := "chat", timestamp := 2 },
                  { Message.zero with type := "join", timestamp := 1 }])).length ≤ 50 ∧
    List.Pairwise (fun a b => a.timestamp ≤ b.timestamp)
      (GetMessages 50
        (storeOf [{ Message.zero with type := "chat", timestamp := 2 },
                  { Message.zero with type := "join", timestamp := 1 }])) ∧
    (∀ m ∈ GetMessages 50
        (storeOf [{ Message.zero with type := "chat", timestamp := 2 },
                  { Message.zero with type := "join", timestamp := 1 }]),
      m.type = "chat" ∨ m.type = "join" ∨ m.type = "leave") :=
  history_replay (HubState.mk []
      (storeOf [{ Message.zero with type := "chat", timestamp := 2 },
                { Message.zero with type := "join", timestamp := 1 }]))
    (Client.mk 0 "ann") 9
    [{ Message.zero with type := "chat", timestamp := 2 },
     { Message.zero with type := "join", timestamp := 1 }] rfl (by decide)

/-- C9: whatever a successfully decoded inbound unit contained, the
Message the read pump forwards to `Hub.Broadcast` carries the Client's
bound identity, kind `chat`, and the server-assigned timestamp; any two
decodable inbound payloads — in particular two differing only in their
submitted username, type or timestamp — yield forwarded Messages with
identical identity and kind. -/
theorem readPump_stamps (c : Client) (now : Nat) (raw : Raw) (m : Message)
    (h : Raw.decode raw = some m) :
    readPumpStep c now raw = some (Raw.json (Message.encode (stamp c now m))) ∧
    (stamp c now m).username = c.GetUsername ∧
    (stamp c now m).type = "chat" ∧
    (stamp c now m).timestamp = now ∧
    (∀ raw2 m2, Raw.decode raw2 = some m2 →
      (stamp c now m2).username = (stamp c now m).username ∧
      (stamp c now m2).type = (stamp c now m).type) := by
  refine ⟨by simp [readPumpStep, h], rfl, rfl, rfl, ?_⟩
  intro raw2 m2 _
  exact ⟨rfl, rfl⟩

/-- Witness for C9: a payload claiming username "mallory", kind "evil" and
timestamp 99 is forwarded as a chat Message from the bound identity "ann"
stamped with the server time 7. -/
theorem readPump_stamps_witness :
    readPumpStep (Client.mk 0 "ann") 7
        (Raw.json [JField.username "mallory", JField.type "evil",
          JField.timestamp 99, JField.content "hi"])
      = some (Raw.json (Message.encode (stamp (Client.mk 0 "ann") 7
          (Message.decodeFields [JField.username "mallory", JField.type "evil",
            JField.timestamp 99, JField.content "hi"])))) ∧
    (stamp (Client.mk 0 "ann") 7
        (Message.decodeFields [JField.username "mallory", JField.type "evil",
          JField.timestamp 99, JField.content "hi"])).username
      = (Client.mk 0 "ann").GetUsername ∧
    (stamp (Client.mk 0 "ann") 7
        (Message.decodeFields [JField.username "mallory", JField.type "evil",
          JField.timestamp 99, JField.content "hi"])).type = "chat" ∧
    (stamp (Client.mk 0 "ann") 7
        (Message.decodeFields [JField.username "mallory", JField.type "evil",
          JField.timestamp 99, JField.content "hi"])).timestamp = 7 ∧
    (∀ raw2 m2, Raw.decode raw2 = some m2 →
      (stamp (Client.mk 0 "ann") 7 m2).username
        = (stamp (Client.mk 0 "ann") 7
            (Message.decodeFields [JField.username "mallory", JField.type "evil",
              JField.timestamp 99, JField.content "hi"])).username ∧
      (stamp (Client.mk 0 "ann") 7 m2).type
        = (stamp (Client.mk 0 "ann") 7
            (Message.decodeFields [JField.username "mallory", JField.type "evil",
              JField.timestamp 99, JField.content "hi"])).type) :=
  readPump_stamps (Client.mk 0 "ann") 7
    (Raw.json [JField.username "mallory", JField.type "evil",
      JField.timestamp 99, JField.content "hi"])
    (Message.decodeFields [JField.username "mallory", JField.type "evil",
      JField.timestamp 99, JField.content "hi"]) rfl
